import Mathlib

/-!
Verification of the merge-queue bot (homu) against its specification.

This file gives a shallow embedding of `src/homu/main.py` into Lean:

* pure string helpers (`sha_cmp`, `sha_or_blank`, tokenisation of comment
  bodies) mirror the Python functions of the same names;
* `PullReqState` mirrors the in-memory entity `PullReqState`;
* `DB` mirrors the three persisted tables (`pull`, `build_res`, `mergeable`)
  as association lists, and the SQL statements of the source become list
  transformations (`UPDATE` = map over matching rows, `REPLACE` = delete all
  rows with the key then append, `DELETE` = filter);
* `parse_commands` mirrors the command parser, with the mutable Python
  state threaded explicitly (`ParseSt`) and the comments posted through
  `add_comment` accumulated in a list; the buildbot HTTP response used by
  the `force` directive is external input and is abstracted by the already
  extracted error string `forceErr` (lines 285-299 of the source);
* `create_merge`, `start_build` and the per-row recovery code of `main`
  (lines 683-722) are embedded with the hosting platform's answers supplied
  as an explicit `Platform` record and the platform side effects (ref
  updates, merge calls, status checks, comments) logged in `BuildEffects`;
  Python exceptions become `Except` values.

Unicode caveat, noted once: Python `str.splitlines` and `\S` additionally
treat a few rare control characters (`\x1c`-`\x1e`, `\x85`, `U+2028/9`) as
line breaks / whitespace; the embedding handles the ASCII ones that matter
for GitHub comment bodies (space, tab, `\n`, `\r`, `\x0b`, `\x0c`).
Likewise Python `int()` accepts surrounding whitespace and unicode digits,
which cannot occur in the whitespace-free tokens it is applied to here.
-/

/-! ## String helpers -/

/-- Whitespace characters of Python's `\s` (ASCII part): space, tab,
newline, carriage return, vertical tab, form feed. -/
def pyIsSpace (c : Char) : Bool :=
  c == ' ' || c == '\t' || c == '\n' || c == '\r' || c == '\x0b' || c == '\x0c'

/-- Helper of `pySplitlines`: split a character list at line terminators
(`\n`, `\r`, `\r\n`, `\x0b`, `\x0c`), Python `str.splitlines` semantics:
no empty trailing line after a final terminator. -/
def pySplitlinesAux : List Char → List Char → List String
  | [], acc => if acc.isEmpty then [] else [String.mk acc.reverse]
  | '\r' :: '\n' :: rest, acc => String.mk acc.reverse :: pySplitlinesAux rest []
  | '\r' :: rest, acc => String.mk acc.reverse :: pySplitlinesAux rest []
  | '\n' :: rest, acc => String.mk acc.reverse :: pySplitlinesAux rest []
  | '\x0b' :: rest, acc => String.mk acc.reverse :: pySplitlinesAux rest []
  | '\x0c' :: rest, acc => String.mk acc.reverse :: pySplitlinesAux rest []
  | c :: rest, acc => pySplitlinesAux rest (c :: acc)

/-- Python `str.splitlines`. -/
def pySplitlines (s : String) : List String :=
  pySplitlinesAux s.data []

/-- Helper of `whitespaceTokens`: maximal runs of non-whitespace characters. -/
def whitespaceTokensAux : List Char → List Char → List String
  | [], acc => if acc.isEmpty then [] else [String.mk acc.reverse]
  | c :: rest, acc =>
      if pyIsSpace c then
        if acc.isEmpty then whitespaceTokensAux rest []
        else String.mk acc.reverse :: whitespaceTokensAux rest []
      else whitespaceTokensAux rest (c :: acc)

/-- Python `re.findall(r'\S+', x)`: the maximal whitespace-free tokens. -/
def whitespaceTokens (s : String) : List String :=
  whitespaceTokensAux s.data []

/-- Does the first character list start with the second one? -/
def charsStartWith : List Char → List Char → Bool
  | _, [] => true
  | [], _ :: _ => false
  | a :: as, b :: bs => a == b && charsStartWith as bs

/-- Does the needle occur as a contiguous sublist of the haystack? -/
def charsContain : List Char → List Char → Bool
  | [], needle => needle.isEmpty
  | a :: as, needle => charsStartWith (a :: as) needle || charsContain as needle

/-- Python's substring test `needle in hay`. -/
def strContains (hay needle : String) : Bool :=
  charsContain hay.data needle.data

/-- Python `word.startswith(p)` / character-level `String.isPrefixOf p s`
(character-based like Python slicing; byte positions never arise). -/
def strStartsWith (p s : String) : Bool :=
  charsStartWith s.data p.data

/-- Python slicing `s[:n]` (`'{:.7}'.format` truncation). -/
def strTake (s : String) (n : Nat) : String :=
  String.mk (s.data.take n)

/-- Python slicing `s[n:]`. -/
def strDrop (s : String) (n : Nat) : String :=
  String.mk (s.data.drop n)

/-- The token list the parser iterates over (`main.py` line 233): tokens of
every line of the body that mentions `@` + the bot's own login. -/
def commentWords (body my_username : String) : List String :=
  ((pySplitlines body).filter
      (fun line => strContains line ("@" ++ my_username))).foldr
    (fun line acc => whitespaceTokens line ++ acc) []

/-- Digit-and-underscore part of Python `int()` on a sign-free numeral:
digits optionally grouped by single underscores between digits. -/
def pyIntCore : List Char → Nat → Bool → Option Nat
  | [], acc, needDigit => if needDigit then none else some acc
  | c :: cs, acc, needDigit =>
      if c.isDigit then pyIntCore cs (acc * 10 + (c.toNat - 48)) false
      else if c == '_' && !needDigit then pyIntCore cs acc true
      else none

/-- Python `int()` applied to a whitespace-free token: optional sign, then
a nonempty digit string with optional single underscore separators. -/
def pyInt? (s : String) : Option Int :=
  match s.data with
  | '+' :: rest => (pyIntCore rest 0 true).map Int.ofNat
  | '-' :: rest => (pyIntCore rest 0 true).map (fun n => -(n : Int))
  | rest => (pyIntCore rest 0 true).map Int.ofNat

/-- `sha_cmp` (`main.py` lines 220-221): prefix test requiring at least 4
characters. -/
def sha_cmp (short full : String) : Bool :=
  decide (4 ≤ short.length) && short == strTake full short.length

/-- Lowercase-hex test of the regex `[0-9a-f]`. -/
def isHexLower (c : Char) : Bool :=
  c.isDigit || ('a' ≤ c && c ≤ 'f')

/-- `sha_or_blank` (`main.py` lines 223-224): keep the token when it matches
`^[0-9a-f]+$`, else blank it. -/
def sha_or_blank (s : String) : String :=
  if s != "" && s.data.all isHexLower then s else ""

/-! ## Data model: entity and persisted tables -/

/-- In-memory pull-request state (`PullReqState` of `main.py`).  The handles
to the hosting platform (`gh`, `owner`, `name`, `repos`, `mergeable_que`)
are external collaborators and are not part of the embedded data. -/
structure PullReqState where
  num : Int
  head_sha : String
  status : String
  repo_label : String
  approved_by : String
  priority : Int
  try_ : Bool
  rollup : Bool
  merge_sha : String
  mergeable : Option Bool
  build_res : List (String × Option Bool × String)
  title : String
  body : String
  head_ref : String
  base_ref : String
  assignee : String
deriving DecidableEq

/-- One row of the persisted `pull` table. -/
structure PullRow where
  repo : String
  num : Int
  status : String
  merge_sha : String
  title : String
  body : String
  head_sha : String
  head_ref : String
  base_ref : String
  assignee : String
  approved_by : String
  priority : Int
  try_ : Bool
  rollup : Bool
deriving DecidableEq

/-- One row of the persisted `build_res` table. -/
structure BuildResRow where
  repo : String
  num : Int
  builder : String
  res : Option Bool
  url : String
  merge_sha : String
deriving DecidableEq

/-- One row of the persisted `mergeable` table. -/
structure MergeableRow where
  repo : String
  num : Int
  mergeable : Bool
deriving DecidableEq

/-- The relational store: the three tables of `schema.sql`. -/
structure DB where
  pulls : List PullRow
  build_res : List BuildResRow
  mergeables : List MergeableRow
deriving DecidableEq

/-- The `pull` row holding the current in-memory state (column list of
`PullReqState.save`, `main.py` lines 198-212). -/
def rowOfState (st : PullReqState) : PullRow :=
  { repo := st.repo_label, num := st.num, status := st.status,
    merge_sha := st.merge_sha, title := st.title, body := st.body,
    head_sha := st.head_sha, head_ref := st.head_ref, base_ref := st.base_ref,
    assignee := st.assignee, approved_by := st.approved_by,
    priority := st.priority, try_ := st.try_, rollup := st.rollup }

/-- `UPDATE pull SET status = %s WHERE repo = %s AND num = %s`. -/
def DB.updateStatus (db : DB) (repo : String) (num : Int) (status : String) : DB :=
  let f := fun (r : PullRow) =>
    if r.repo == repo && r.num == num then { r with status := status } else r
  { db with pulls := db.pulls.map f }

/-- `UPDATE pull SET merge_sha = %s WHERE repo = %s AND num = %s`. -/
def DB.updateMergeSha (db : DB) (repo : String) (num : Int) (merge_sha : String) : DB :=
  let f := fun (r : PullRow) =>
    if r.repo == repo && r.num == num then { r with merge_sha := merge_sha } else r
  { db with pulls := db.pulls.map f }

/-- `REPLACE INTO pull ...`: delete every row with the key, insert the new row. -/
def DB.replacePull (db : DB) (row : PullRow) : DB :=
  let kept := db.pulls.filter (fun r => !(r.repo == row.repo && r.num == row.num))
  { db with pulls := kept ++ [row] }

/-- `DELETE FROM build_res WHERE repo = %s AND num = %s`. -/
def DB.deleteBuildRes (db : DB) (repo : String) (num : Int) : DB :=
  let kept := db.build_res.filter (fun r => !(r.repo == repo && r.num == num))
  { db with build_res := kept }

/-- `REPLACE INTO build_res ...` keyed by `(repo, num, builder)`. -/
def DB.replaceBuildRes (db : DB) (row : BuildResRow) : DB :=
  let kept := db.build_res.filter
    (fun r => !(r.repo == row.repo && r.num == row.num && r.builder == row.builder))
  { db with build_res := kept ++ [row] }

/-- `DELETE FROM mergeable WHERE repo = %s AND num = %s`. -/
def DB.deleteMergeable (db : DB) (repo : String) (num : Int) : DB :=
  let kept := db.mergeables.filter (fun r => !(r.repo == repo && r.num == num))
  { db with mergeables := kept }

/-- First `pull` row with the given key, as a `SELECT ... WHERE` would find it. -/
def lookupPull (db : DB) (repo : String) (num : Int) : Option PullRow :=
  db.pulls.find? (fun r => r.repo == repo && r.num == num)

/-! ## Entity operations -/

/-- `PullReqState.save` (`main.py` lines 198-212). -/
def PullReqState.save (st : PullReqState) (db : DB) : DB :=
  db.replacePull (rowOfState st)

/-- `PullReqState.set_status` (`main.py` lines 115-129): set the field,
update the `status` column, and - only outside try mode - also update the
`merge_sha` column. -/
def PullReqState.set_status (st : PullReqState) (status : String) (db : DB) :
    PullReqState × DB :=
  let st' := { st with status := status }
  let db' := db.updateStatus st'.repo_label st'.num st'.status
  if st'.try_ then (st', db')
  else (st', db'.updateMergeSha st'.repo_label st'.num st'.merge_sha)

/-- `PullReqState.get_status` (`main.py` lines 131-132). -/
def PullReqState.get_status (st : PullReqState) : String :=
  if st.status == "" && st.approved_by != "" && st.mergeable != some false then "approved"
  else st.status

/-- `PullReqState.init_build_res` (`main.py` lines 155-165). -/
def PullReqState.init_build_res (st : PullReqState) (builders : List String)
    (use_db : Bool) (db : DB) : PullReqState × DB :=
  let st' := { st with build_res := builders.map (fun b => (b, (none : Option Bool), "")) }
  if use_db then (st', db.deleteBuildRes st'.repo_label st'.num) else (st', db)

/-- `PullReqState.set_build_res` (`main.py` lines 167-183): an unknown
builder raises before any mutation; otherwise the mapping entry is replaced
and one `build_res` row is upserted with the current `merge_sha`. -/
def PullReqState.set_build_res (st : PullReqState) (builder : String)
    (res : Option Bool) (url : String) (db : DB) : Except String (PullReqState × DB) :=
  if (st.build_res.find? (fun e => e.1 == builder)).isNone then
    .error ("Invalid builder: " ++ builder)
  else
    let newRes := st.build_res.map (fun e => if e.1 == builder then (builder, res, url) else e)
    let st' := { st with build_res := newRes }
    let row : BuildResRow :=
      { repo := st'.repo_label, num := st'.num, builder := builder,
        res := res, url := url, merge_sha := st'.merge_sha }
    .ok (st', db.replaceBuildRes row)

/-- `STATUS_TO_PRIORITY.get(..., -1)` (`main.py` lines 20-27, 97). -/
def STATUS_TO_PRIORITY (s : String) : Int :=
  if s == "success" then 0
  else if s == "pending" then 1
  else if s == "approved" then 2
  else if s == "" then 3
  else if s == "error" then 4
  else if s == "failure" then 5
  else -1

/-- `PullReqState.sort_key` (`main.py` lines 95-103). -/
def PullReqState.sort_key (st : PullReqState) : List Int :=
  [STATUS_TO_PRIORITY st.get_status,
   if st.mergeable == some false then 1 else 0,
   if st.approved_by != "" then 0 else 1,
   if st.rollup then 1 else 0,
   -st.priority,
   st.num]

/-- Python's lexicographic comparison of two same-purpose `list`s of `int`s
(`PullReqState.__lt__`, `main.py` lines 105-106). -/
def intListLt : List Int → List Int → Bool
  | [], [] => false
  | [], _ :: _ => true
  | _ :: _, [] => false
  | a :: as, b :: bs => if a < b then true else if b < a then false else intListLt as bs

/-- Stable insertion for `sortStates`: the new element goes after every
element that is not strictly greater. -/
def insertByKey (x : PullReqState) : List PullReqState → List PullReqState
  | [] => [x]
  | y :: ys =>
      if intListLt x.sort_key y.sort_key then x :: y :: ys else y :: insertByKey x ys

/-- Python `sorted` over pull-request states: stable, ascending by
`sort_key` (used by `process_queue`, `main.py` line 483). -/
def sortStates (l : List PullReqState) : List PullReqState :=
  l.foldl (fun acc x => insertByKey x acc) []

/-! ## Repository configuration -/

/-- The `buildbot` block of a repository configuration. -/
structure BuildbotCfg where
  url : String
  username : String
  password : String
  builders : List String
  try_builders : List String
deriving DecidableEq

/-- The `testrunners` block; `builders` is optional
(`repo_cfg['testrunners'].get('builders', [])`). -/
structure TestrunnersCfg where
  builders : Option (List String)
deriving DecidableEq

/-- A repository configuration as consumed by `main.py`.  Presence of the
`travis` / `status` keys is a boolean; `branch_try` / `branch_auto` model
`repo_cfg.get('branch', {}).get('try' | 'auto', ...)`. -/
structure RepoCfg where
  owner : String
  name : String
  reviewers : List String
  buildbot : Option BuildbotCfg
  travis : Bool
  statusCI : Bool
  testrunners : Option TestrunnersCfg
  branch_try : Option String
  branch_auto : Option String
deriving DecidableEq

/-! ## Command parser -/

/-- The mutable context of one `parse_commands` call: the entity, the
store, the comments posted through `add_comment` (in order), and the
`state_changed` flag. -/
structure ParseSt where
  state : PullReqState
  db : DB
  comments : List String
  changed : Bool
deriving DecidableEq

/-- One iteration of the token loop of `parse_commands` (`main.py` lines
234-311) at index `i`: returns the `found` flag and the updated context.
The `force` directive's buildbot HTTP exchange is external input; its
already extracted error message (lines 291-299, empty string = no error)
is supplied as `forceErr`. -/
def parseStep (username my_username : String) (realtime : Bool)
    (sha forceErr : String) (i : Nat) (ws : List String) (ps : ParseSt) :
    Bool × ParseSt :=
  let word := ws.getD i ""
  let st := ps.state
  if word == "r+" || strStartsWith "r=" word then
    let cur_sha :=
      if sha == "" && decide (i + 1 < ws.length) then sha_or_blank (ws.getD (i + 1) "")
      else sha
    let approver := if strStartsWith "r=" word then strDrop word 2 else username
    if sha_cmp cur_sha st.head_sha then
      let st' := { st with approved_by := approver }
      (true, { ps with state := st', db := st'.save ps.db })
    else if realtime && username != my_username then
      if cur_sha != "" then
        let msg := ":question: `" ++ cur_sha ++ "` is not a valid commit SHA. " ++
          "Please try again with `" ++ strTake st.head_sha 7 ++ "`."
        (true, { ps with comments := ps.comments ++ [msg] })
      else
        let msg := ":pushpin: Commit " ++ strTake st.head_sha 7 ++
          " has been approved by `" ++ approver ++ "`\n\n<!-- @" ++ my_username ++
          " r=" ++ approver ++ " " ++ st.head_sha ++ " -->"
        (true, { ps with comments := ps.comments ++ [msg] })
    else (true, ps)
  else if word == "r-" then
    let st' := { st with approved_by := "" }
    (true, { ps with state := st', db := st'.save ps.db })
  else if strStartsWith "p=" word then
    let st' :=
      match pyInt? (strDrop word 2) with
      | some v => { st with priority := v }
      | none => st
    (true, { ps with state := st', db := st'.save ps.db })
  else if word == "retry" && realtime then
    let r := st.set_status "" ps.db
    (true, { ps with state := r.1, db := r.2 })
  else if (word == "try" || word == "try-") && realtime then
    let st1 := { st with try_ := word == "try", merge_sha := "" }
    let r := st1.init_build_res [] true ps.db
    (true, { ps with state := r.1, db := r.1.save r.2 })
  else if word == "rollup" || word == "rollup-" then
    let st' := { st with rollup := word == "rollup" }
    (true, { ps with state := st', db := st'.save ps.db })
  else if word == "force" && realtime then
    if forceErr != "" then
      let msg := ":bomb: Buildbot returned an error: `" ++ forceErr ++ "`"
      (true, { ps with comments := ps.comments ++ [msg] })
    else (true, ps)
  else if word == "clean" && realtime then
    let st1 := { st with merge_sha := "" }
    let r := st1.init_build_res [] true ps.db
    (true, { ps with state := r.1, db := r.1.save r.2 })
  else (false, ps)

/-- The reversed token loop of `parse_commands`: `parseGo ... (i+1)`
processes index `i` and recurses downwards, so indices are visited from
the last token to the first, and a matched token is blanked. -/
def parseGo (username my_username : String) (realtime : Bool)
    (sha forceErr : String) : Nat → List String → ParseSt → ParseSt
  | 0, _, ps => ps
  | i + 1, ws, ps =>
      let fp := parseStep username my_username realtime sha forceErr i ws ps
      if fp.1 then
        parseGo username my_username realtime sha forceErr i (ws.set i "")
          { fp.2 with changed := true }
      else parseGo username my_username realtime sha forceErr i ws fp.2

/-- `parse_commands` (`main.py` lines 226-318).  Returns the Python return
value paired with the final context. -/
def parse_commands (body username : String) (repo_cfg : RepoCfg)
    (st : PullReqState) (db : DB) (my_username : String) (realtime : Bool)
    (sha forceErr : String) : Bool × ParseSt :=
  if !(repo_cfg.reviewers.contains username) && username != my_username then
    (false, ⟨st, db, [], false⟩)
  else
    let ws := commentWords body my_username
    let r := parseGo username my_username realtime sha forceErr ws.length ws
      ⟨st, db, [], false⟩
    (r.changed, r)

/-! ## Build dispatcher and recovery -/

/-- Outcome of the platform's merge call in `create_merge`. -/
inductive MergeOutcome where
  | ok (sha : String)
  | conflict
  | otherError (code : Int)
deriving DecidableEq

/-- The hosting platform's answers consumed by `create_merge` /
`start_build`: the base branch tip, the PR head reported by the platform,
the refreshed title and body, and the result of the merge request. -/
structure Platform where
  base_sha : String
  pr_head_sha : String
  pr_title : String
  pr_body : String
  merge_result : MergeOutcome
deriving DecidableEq

/-- A status check created through `utils.github_create_status`. -/
structure StatusCheck where
  sha : String
  state : String
  target_url : String
  description : String
  context : String
deriving DecidableEq

/-- Log of platform side effects of one dispatcher call: forced ref
updates `(ref, sha)`, merge requests `(branch, head_sha, message)`, status
checks, and comments. -/
structure BuildEffects where
  set_refs : List (String × String)
  merges : List (String × String × String)
  statuses : List StatusCheck
  comments : List String
deriving DecidableEq

/-- Python exceptions escaping `start_build` / the recovery loop. -/
inductive BuildErr where
  | assertionFailed
  | invalidConfig
  | githubError (code : Int)
deriving DecidableEq

/-- Return value of `start_build`: the Python boolean, the entity, the
store, the buildbot slot cell, and the logged platform effects. -/
structure BuildResult where
  ret : Bool
  state : PullReqState
  db : DB
  slot : String
  eff : BuildEffects
deriving DecidableEq

/-- Branch and builder selection of `start_build` (`main.py` lines
358-374); `none` models `raise RuntimeError('Invalid configuration')`. -/
def configBranchBuilders (repo_cfg : RepoCfg) (st : PullReqState) :
    Option (String × List String) :=
  match repo_cfg.buildbot with
  | some bb =>
      let branch :=
        if st.try_ then repo_cfg.branch_try.getD "try" else repo_cfg.branch_auto.getD "auto"
      some (branch, if st.try_ then bb.try_builders else bb.builders)
  | none =>
      if repo_cfg.travis then some (repo_cfg.branch_auto.getD "auto", ["travis"])
      else if repo_cfg.statusCI then some (repo_cfg.branch_auto.getD "auto", ["status"])
      else
        match repo_cfg.testrunners with
        | some tr => some ("merge_bot_" ++ st.base_ref, tr.builders.getD [])
        | none => none

/-- Builder selection of the recovery loop (`main.py` lines 702-711);
`none` models `raise RuntimeError('Invalid configuration')`. -/
def recoveryBuilders (repo_cfg : RepoCfg) : Option (List String) :=
  match repo_cfg.buildbot with
  | some bb => some bb.builders
  | none =>
      if repo_cfg.travis then some ["travis"]
      else if repo_cfg.statusCI then some ["status"]
      else
        match repo_cfg.testrunners with
        | some tr => some (tr.builders.getD [])
        | none => none

/-- `create_merge` (`main.py` lines 320-350).  Returns the merge commit
SHA (`none` on a 409 conflict, after the local recovery of lines 342-348);
any other `GitHubError` propagates as `.error code`.  On the propagating
path the side effects already performed on the platform are outside the
returned value. -/
def create_merge (st : PullReqState) (platform : Platform) (branch : String)
    (db : DB) : Except Int (Option String × PullReqState × DB × BuildEffects) :=
  let eff0 : BuildEffects := ⟨[("heads/" ++ branch, platform.base_sha)], [], [], []⟩
  let st1 := { st with title := platform.pr_title, body := platform.pr_body }
  let merge_msg := "Auto merge of #" ++ toString st1.num ++ " - " ++ st1.head_ref ++
    ", r=" ++ (if st1.try_ then "<try>" else st1.approved_by) ++ "\n\n" ++
    st1.title ++ "\n\n" ++ st1.body
  let eff1 := { eff0 with merges := [(branch, st1.head_sha, merge_msg)] }
  match platform.merge_result with
  | .ok msha => .ok (some msha, st1, db, eff1)
  | .conflict =>
      let r := st1.set_status "error" db
      let eff2 := { eff1 with
        statuses := [⟨st1.head_sha, "error", "", "Merge conflict", "homu"⟩],
        comments := [":lock: Merge conflict"] }
      .ok (none, r.1, r.2, eff2)
  | .otherError code => .error code

/-- `start_build` (`main.py` lines 352-409).  `slot` is the cell
`buildbot_slots[0]`. -/
def start_build (st : PullReqState) (repo_cfg : RepoCfg) (platform : Platform)
    (slot : String) (db : DB) : Except BuildErr BuildResult :=
  if slot != "" then .ok ⟨true, st, db, slot, ⟨[], [], [], []⟩⟩
  else if st.head_sha != platform.pr_head_sha then .error .assertionFailed
  else
    match configBranchBuilders repo_cfg st with
    | none => .error .invalidConfig
    | some (branch, builders) =>
        match create_merge st platform branch db with
        | .error code => .error (.githubError code)
        | .ok (none, st1, db1, eff1) => .ok ⟨false, st1, db1, slot, eff1⟩
        | .ok (some msha, st1, db1, eff1) =>
            let r2 := st1.init_build_res builders true db1
            let st3 := { r2.1 with merge_sha := msha }
            let db3 := st3.save r2.2
            let slot2 := if repo_cfg.buildbot.isSome then msha else slot
            let r4 := st3.set_status "pending" db3
            let st4 := r4.1
            let desc := (if st4.try_ then "Trying" else "Testing") ++ " commit " ++
              strTake st4.head_sha 7 ++ " with merge " ++ strTake st4.merge_sha 7 ++ "..."
            let newStatuses :=
              if repo_cfg.testrunners.isSome then
                builders.map (fun b =>
                  (⟨st4.head_sha, "pending", "", desc, "merge-test/" ++ b⟩ : StatusCheck))
              else [⟨st4.head_sha, "pending", "", desc, "homu"⟩]
            let eff2 := { eff1 with statuses := eff1.statuses ++ newStatuses }
            let eff3 := { eff2 with comments := eff2.comments ++ [":hourglass: " ++ desc] }
            .ok ⟨true, st4, r4.2, slot2, eff3⟩

/-- Loading of one persisted `pull` row on startup (`main.py` lines
683-722): rebuild the entity, drop the cached mergeability
(`set_mergeable(None)` deletes the row and enqueues a probe), then either
re-initialise the build results (row has a `merge_sha`) or demote a
dangling `pending` status to the empty string and write the row back. -/
def loadPull (row : PullRow) (repo_cfg : RepoCfg) (db : DB) :
    Except BuildErr (PullReqState × DB) :=
  let st0 : PullReqState :=
    { num := row.num, head_sha := row.head_sha, status := row.status,
      repo_label := row.repo, approved_by := row.approved_by,
      priority := row.priority, try_ := row.try_, rollup := row.rollup,
      merge_sha := "", mergeable := none, build_res := [], title := row.title,
      body := row.body, head_ref := row.head_ref, base_ref := row.base_ref,
      assignee := row.assignee }
  let db1 := db.deleteMergeable row.repo row.num
  if row.merge_sha != "" then
    match recoveryBuilders repo_cfg with
    | none => .error .invalidConfig
    | some builders =>
        let r := st0.init_build_res builders false db1
        .ok ({ r.1 with merge_sha := row.merge_sha }, r.2)
  else if st0.status == "pending" then
    let st1 := { st0 with status := "" }
    .ok (st1, st1.save db1)
  else .ok (st0, db1)

/-! ## Spec-side definitions (for the ordering-key refinement of C1) -/

/-- Status priority as the specification words it: success=0, pending=1,
approved=2, empty=3, error=4, failure=5.  The specification's status
domain is exactly these six values, so the default branch is arbitrary
(and deliberately differs from the code's `-1`). -/
def specStatusPriority (s : String) : Int :=
  if s == "success" then 0
  else if s == "pending" then 1
  else if s == "approved" then 2
  else if s == "" then 3
  else if s == "error" then 4
  else if s == "failure" then 5
  else 0

/-- The derived `effectiveStatus` as the specification words it. -/
def specEffectiveStatus (st : PullReqState) : String :=
  if st.status == "" && st.approved_by != "" && st.mergeable != some false then "approved"
  else st.status

/-- The ordering key as the specification words it: the lexicographic
6-tuple over the effective status. -/
def specOrderKey (st : PullReqState) : List Int :=
  [specStatusPriority (specEffectiveStatus st),
   if st.mergeable == some false then 1 else 0,
   if st.approved_by != "" then 0 else 1,
   if st.rollup then 1 else 0,
   -st.priority,
   st.num]

/-! ## Concrete fixtures used by witnesses and counterexamples -/

/-- A fresh pull request with the given queue-relevant attributes, the
other fields at the class defaults of `PullReqState`. -/
def mkPR (num : Int) (status approved_by : String) (rollup : Bool)
    (priority : Int) : PullReqState :=
  { num := num, head_sha := "deadbeefcafebabe0123456789abcdef01234567",
    status := status, repo_label := "repo", approved_by := approved_by,
    priority := priority, try_ := false, rollup := rollup, merge_sha := "",
    mergeable := none, build_res := [], title := "", body := "",
    head_ref := "", base_ref := "master", assignee := "" }

/-- A travis-shaped (non-session-CI) repository configuration. -/
def travisCfg : RepoCfg :=
  { owner := "own", name := "rep", reviewers := ["alice"], buildbot := none,
    travis := true, statusCI := false, testrunners := none,
    branch_try := none, branch_auto := none }

/-- An empty store. -/
def emptyDB : DB := ⟨[], [], []⟩

/-- A platform snapshot whose head agrees with `mkPR`'s head. -/
def platformOf (outcome : MergeOutcome) : Platform :=
  { base_sha := "0000000011111111222222223333333344444444",
    pr_head_sha := "deadbeefcafebabe0123456789abcdef01234567",
    pr_title := "t", pr_body := "b", merge_result := outcome }

/-! ## Outcome predicates used to state claims about Except-valued code -/

/-- The post-conditions claimed for a 409 merge conflict in `start_build`:
returns false, buildbot slot unchanged (still empty), status `error`, one
`homu`-context error status check with description `Merge conflict`, and
the `:lock: Merge conflict` comment. -/
def conflictOutcome (x : Except BuildErr BuildResult) (head : String) : Prop :=
  match x with
  | .ok r =>
      r.ret = false ∧ r.slot = "" ∧ r.state.status = "error" ∧
      r.eff.statuses = [⟨head, "error", "", "Merge conflict", "homu"⟩] ∧
      r.eff.comments = [":lock: Merge conflict"]
  | .error _ => False

/-- The post-conditions claimed for recovery of a `pending` row without a
`merge_sha`: the loaded entity is demoted to the empty status (with no
merge SHA), and the demoted row has been written back to the store. -/
def loadedDemoted (x : Except BuildErr (PullReqState × DB)) (row : PullRow) : Prop :=
  match x with
  | .ok (st, db') =>
      st.status = "" ∧ st.merge_sha = "" ∧
      lookupPull db' row.repo row.num = some (rowOfState st)
  | .error _ => False

/-- The post-conditions claimed for recovery of a row with a non-empty
`merge_sha`: status kept, merge SHA restored, build results initialised
for the configured builder set, and no write-back to the `pull` table. -/
def loadedWithMerge (x : Except BuildErr (PullReqState × DB)) (row : PullRow)
    (builders : List String) (db : DB) : Prop :=
  match x with
  | .ok (st, db') =>
      st.status = row.status ∧ st.merge_sha = row.merge_sha ∧
      st.build_res = builders.map (fun b => (b, (none : Option Bool), "")) ∧
      db'.pulls = db.pulls
  | .error _ => False

/-! ## Static effect summary of a non-realtime parse

With `realtime = false` the only directives the token loop acts on are
`r+` / `r=...` / `r-` / `p=...` / `rollup` / `rollup-`.  Each of them
assigns statically determined values to at most one of the fields
`approved_by`, `priority`, `rollup` and then replaces the whole `pull`
row; which branch runs depends only on the token list, the `sha`
argument, and the (never modified) `head_sha`.  `NrWrites` is that static
summary; `parseGo_false_eq` below proves the token loop equal to applying
it, which is what makes the double-parse idempotence claim provable for
every comment body. -/

/-- Pending field writes of a non-realtime token loop run: the value each
field ends up assigned (`none` = untouched), whether any `save` ran, and
whether any token was recognised (`state_changed`). -/
structure NrWrites where
  appr : Option String
  prio : Option Int
  roll : Option Bool
  saved : Bool
  chg : Bool
deriving DecidableEq

/-- Left-biased choice used to combine write summaries. -/
def optOr {α : Type} : Option α → Option α → Option α
  | some v, _ => some v
  | none, o => o

/-- Combine the summary of an earlier step with the summary of the rest of
the run (the later writes win). -/
def NrWrites.merge (first later : NrWrites) : NrWrites :=
  ⟨optOr later.appr first.appr, optOr later.prio first.prio,
   optOr later.roll first.roll, first.saved || later.saved,
   first.chg || later.chg⟩

/-- Apply a write summary to the entity. -/
def NrWrites.apply (W : NrWrites) (st : PullReqState) : PullReqState :=
  { st with approved_by := W.appr.getD st.approved_by,
            priority := W.prio.getD st.priority,
            rollup := W.roll.getD st.rollup }

/-- Write summary of a single non-realtime step at index `i`: the branch
structure of `parseStep` with `realtime = false`. -/
def nrStepW (username sha head : String) (i : Nat) (ws : List String) : NrWrites :=
  let word := ws.getD i ""
  if word == "r+" || strStartsWith "r=" word then
    let cur_sha :=
      if sha == "" && decide (i + 1 < ws.length) then sha_or_blank (ws.getD (i + 1) "")
      else sha
    let approver := if strStartsWith "r=" word then strDrop word 2 else username
    if sha_cmp cur_sha head then ⟨some approver, none, none, true, true⟩
    else ⟨none, none, none, false, true⟩
  else if word == "r-" then ⟨some "", none, none, true, true⟩
  else if strStartsWith "p=" word then ⟨none, pyInt? (strDrop word 2), none, true, true⟩
  else if word == "rollup" || word == "rollup-" then
    ⟨none, none, some (word == "rollup"), true, true⟩
  else ⟨none, none, none, false, false⟩

/-- Write summary of the whole non-realtime token loop, mirroring the
blanking of recognised tokens. -/
def nrGoW (username sha head : String) : Nat → List String → NrWrites
  | 0, _ => ⟨none, none, none, false, false⟩
  | i + 1, ws =>
      let Ws := nrStepW username sha head i ws
      if Ws.chg then NrWrites.merge Ws (nrGoW username sha head i (ws.set i ""))
      else NrWrites.merge Ws (nrGoW username sha head i ws)

/-- A token that matches none of the parser's directive patterns (so the
token loop leaves the context untouched at its index, in either realtime
mode). -/
def inertWord (w : String) : Bool :=
  !(w == "r+" || strStartsWith "r=" w || w == "r-" || strStartsWith "p=" w ||
    w == "retry" || w == "try" || w == "try-" || w == "rollup" || w == "rollup-" ||
    w == "force" || w == "clean")

/-! ## Helper lemmas -/

theorem parseStep_inert (username my_username : String) (realtime : Bool)
    (sha forceErr : String) (i : Nat) (ws : List String) (ps : ParseSt)
    (hw : inertWord (ws.getD i "") = true) :
    parseStep username my_username realtime sha forceErr i ws ps = (false, ps) := by
  unfold inertWord at hw
  simp only [Bool.not_eq_true', Bool.or_eq_false_iff] at hw
  obtain ⟨⟨⟨⟨⟨⟨⟨⟨⟨⟨h1, h2⟩, h3⟩, h4⟩, h5⟩, h6⟩, h7⟩, h8⟩, h9⟩, h10⟩, h11⟩ := hw
  unfold parseStep
  simp only [h1, h2, h3, h4, h5, h6, h7, h8, h9, h10, h11, Bool.false_or, Bool.or_false,
    Bool.false_and, Bool.and_false, Bool.false_eq_true, ite_false]

theorem set_status_fst (st : PullReqState) (s : String) (db : DB) :
    (st.set_status s db).1 = { st with status := s } := by
  by_cases h : st.try_ <;> simp [PullReqState.set_status, h]

theorem lookupPull_updateStatus (db : DB) (repo : String) (num : Int) (s : String) :
    lookupPull (db.updateStatus repo num s) repo num =
      (lookupPull db repo num).map (fun r => { r with status := s }) := by
  unfold lookupPull DB.updateStatus
  induction db.pulls with
  | nil => rfl
  | cons r t ih =>
      by_cases h : (r.repo == repo && r.num == num) = true
      · simp only [List.map_cons, h, if_true]
        rw [List.find?_cons_of_pos _ (by simpa using h),
            List.find?_cons_of_pos _ (by simpa using h)]
        rfl
      · simp only [List.map_cons, h, if_false]
        rw [List.find?_cons_of_neg _ (by simpa using h),
            List.find?_cons_of_neg _ (by simpa using h)]
        exact ih

theorem lookupPull_updateMergeSha (db : DB) (repo : String) (num : Int) (m : String) :
    lookupPull (db.updateMergeSha repo num m) repo num =
      (lookupPull db repo num).map (fun r => { r with merge_sha := m }) := by
  unfold lookupPull DB.updateMergeSha
  induction db.pulls with
  | nil => rfl
  | cons r t ih =>
      by_cases h : (r.repo == repo && r.num == num) = true
      · simp only [List.map_cons, h, if_true]
        rw [List.find?_cons_of_pos _ (by simpa using h),
            List.find?_cons_of_pos _ (by simpa using h)]
        rfl
      · simp only [List.map_cons, h, if_false]
        rw [List.find?_cons_of_neg _ (by simpa using h),
            List.find?_cons_of_neg _ (by simpa using h)]
        exact ih

theorem find?_filtered_append (l : List PullRow) (row : PullRow)
    (p : PullRow → Bool) (hp : p row = true) :
    (l.filter (fun r => !(p r)) ++ [row]).find? p = some row := by
  induction l with
  | nil => simp [List.find?, hp]
  | cons x t ih =>
      by_cases hx : p x = true
      · simp only [List.filter_cons, hx, Bool.not_true, if_false]
        exact ih
      · simp only [List.filter_cons, Bool.not_eq_true'] at *
        simp only [hx, Bool.not_false, if_true, List.cons_append]
        rw [List.find?_cons_of_neg _ (by simp [hx])]
        exact ih

theorem lookupPull_replacePull (db : DB) (row : PullRow) :
    lookupPull (db.replacePull row) row.repo row.num = some row := by
  unfold lookupPull DB.replacePull
  exact find?_filtered_append _ _ _ (by simp)

theorem save_save (a b : PullReqState) (db : DB)
    (h1 : a.repo_label = b.repo_label) (h2 : a.num = b.num) :
    a.save (b.save db) = a.save db := by
  unfold PullReqState.save DB.replacePull
  simp only [rowOfState, h1, h2]
  congr 1
  rw [List.filter_append, List.filter_filter]
  have hrow : (!(b.repo_label == b.repo_label && b.num == b.num)) = false := by simp
  simp [hrow, Bool.and_self]

theorem NrWrites.apply_merge (f l : NrWrites) (st : PullReqState) :
    (f.merge l).apply st = l.apply (f.apply st) := by
  cases f with
  | mk fa fp fr fs fc =>
      cases l with
      | mk la lp lr ls lc => cases la <;> cases lp <;> cases lr <;> rfl

theorem NrWrites.apply_apply (W : NrWrites) (st : PullReqState) :
    W.apply (W.apply st) = W.apply st := by
  cases W with
  | mk a p r s c => cases a <;> cases p <;> cases r <;> rfl

theorem NrWrites.apply_head (W : NrWrites) (st : PullReqState) :
    (W.apply st).head_sha = st.head_sha := rfl

theorem NrWrites.apply_repo (W : NrWrites) (st : PullReqState) :
    (W.apply st).repo_label = st.repo_label := rfl

theorem NrWrites.apply_num (W : NrWrites) (st : PullReqState) :
    (W.apply st).num = st.num := rfl

theorem nrStepW_saved_writes (username sha head : String) (i : Nat) (ws : List String) :
    (nrStepW username sha head i ws).saved = false →
    ((nrStepW username sha head i ws).appr = none ∧
     (nrStepW username sha head i ws).prio = none ∧
     (nrStepW username sha head i ws).roll = none) := by
  unfold nrStepW
  dsimp only
  cases hc1 : (ws.getD i "" == "r+" || strStartsWith "r=" (ws.getD i ""))
  · simp only [hc1, Bool.false_eq_true, ite_false]
    cases hc2 : (ws.getD i "" == "r-")
    · simp only [hc2, Bool.false_eq_true, ite_false]
      cases hc3 : strStartsWith "p=" (ws.getD i "")
      · simp only [hc3, Bool.false_eq_true, ite_false]
        cases hc4 : (ws.getD i "" == "rollup" || ws.getD i "" == "rollup-")
        · simp only [hc4, Bool.false_eq_true, ite_false]
          intro h
          simp
        · simp only [hc4, eq_self_iff_true, ite_true]
          intro h
          exact absurd h (by simp)
      · simp only [hc3, eq_self_iff_true, ite_true]
        intro h
        exact absurd h (by simp)
    · simp only [hc2, eq_self_iff_true, ite_true]
      intro h
      exact absurd h (by simp)
  · simp only [hc1, eq_self_iff_true, ite_true]
    cases hcur : (sha == "" && decide (i + 1 < ws.length))
    · simp only [hcur, Bool.false_eq_true, ite_false]
      cases hm : sha_cmp sha head
      · simp only [hm, Bool.false_eq_true, ite_false]
        intro h
        simp
      · simp only [hm, eq_self_iff_true, ite_true]
        intro h
        exact absurd h (by simp)
    · simp only [hcur, eq_self_iff_true, ite_true]
      cases hm : sha_cmp (sha_or_blank (ws.getD (i + 1) "")) head
      · simp only [hm, Bool.false_eq_true, ite_false]
        intro h
        simp
      · simp only [hm, eq_self_iff_true, ite_true]
        intro h
        exact absurd h (by simp)

theorem nrGoW_saved_writes (username sha head : String) :
    ∀ (i : Nat) (ws : List String),
      (nrGoW username sha head i ws).saved = false →
      ((nrGoW username sha head i ws).appr = none ∧
       (nrGoW username sha head i ws).prio = none ∧
       (nrGoW username sha head i ws).roll = none) := by
  intro i
  induction i with
  | zero =>
      intro ws h
      exact ⟨rfl, rfl, rfl⟩
  | succ i ih =>
      intro ws h
      have ego : nrGoW username sha head (i + 1) ws
          = (let Ws := nrStepW username sha head i ws
             if Ws.chg then
               NrWrites.merge Ws (nrGoW username sha head i (ws.set i ""))
             else NrWrites.merge Ws (nrGoW username sha head i ws)) := rfl
      rw [ego] at h ⊢
      cases hc : (nrStepW username sha head i ws).chg <;>
        simp only [hc, Bool.false_eq_true, ite_false, eq_self_iff_true, ite_true,
          NrWrites.merge] at h ⊢
      · rcases Bool.or_eq_false_iff.mp h with ⟨h1, h2⟩
        obtain ⟨sa, sp, sr⟩ := nrStepW_saved_writes username sha head i ws h1
        obtain ⟨ga, gp, gr⟩ := ih ws h2
        rw [sa, sp, sr, ga, gp, gr]
        simp [optOr]
      · rcases Bool.or_eq_false_iff.mp h with ⟨h1, h2⟩
        obtain ⟨sa, sp, sr⟩ := nrStepW_saved_writes username sha head i ws h1
        obtain ⟨ga, gp, gr⟩ := ih (ws.set i "") h2
        rw [sa, sp, sr, ga, gp, gr]
        simp [optOr]

theorem apply_of_no_writes (W : NrWrites) (st : PullReqState)
    (ha : W.appr = none) (hp : W.prio = none) (hr : W.roll = none) :
    W.apply st = st := by
  cases W with
  | mk a p r s c =>
      cases ha
      cases hp
      cases hr
      rfl

theorem parseStep_false_eq (username my_username sha forceErr : String) (i : Nat)
    (ws : List String) (st : PullReqState) (db : DB) (co : List String) (ch : Bool) :
    parseStep username my_username false sha forceErr i ws ⟨st, db, co, ch⟩
      = ((nrStepW username sha st.head_sha i ws).chg,
         ⟨(nrStepW username sha st.head_sha i ws).apply st,
          (if (nrStepW username sha st.head_sha i ws).saved then
             PullReqState.save ((nrStepW username sha st.head_sha i ws).apply st) db
           else db),
          co, ch⟩) := by
  unfold parseStep nrStepW
  dsimp only
  cases hc1 : (ws.getD i "" == "r+" || strStartsWith "r=" (ws.getD i ""))
  · simp only [hc1, Bool.false_eq_true, ite_false]
    cases hc2 : (ws.getD i "" == "r-")
    · simp only [hc2, Bool.false_eq_true, ite_false]
      cases hc3 : strStartsWith "p=" (ws.getD i "")
      · simp only [hc3, Bool.false_eq_true, ite_false, Bool.and_false]
        cases hc4 : (ws.getD i "" == "rollup" || ws.getD i "" == "rollup-")
        · simp only [hc4, Bool.false_eq_true, ite_false, Bool.and_false]
          rfl
        · simp only [hc4, eq_self_iff_true, ite_true]
          rfl
      · simp only [hc3, eq_self_iff_true, ite_true]
        cases hpi : pyInt? (strDrop (ws.getD i "") 2)
        · rfl
        · rfl
    · simp only [hc2, eq_self_iff_true, ite_true]
      rfl
  · simp only [hc1, eq_self_iff_true, ite_true]
    cases hcur : (sha == "" && decide (i + 1 < ws.length))
    · simp only [hcur, Bool.false_eq_true, ite_false]
      cases hm : sha_cmp sha st.head_sha
      · simp only [hm, Bool.false_eq_true, ite_false, Bool.false_and]
        rfl
      · simp only [hm, eq_self_iff_true, ite_true]
        rfl
    · simp only [hcur, eq_self_iff_true, ite_true]
      cases hm : sha_cmp (sha_or_blank (ws.getD (i + 1) "")) st.head_sha
      · simp only [hm, Bool.false_eq_true, ite_false, Bool.false_and]
        rfl
      · simp only [hm, eq_self_iff_true, ite_true]
        rfl

theorem apply_empty (sv cg : Bool) (st : PullReqState) :
    NrWrites.apply ⟨none, none, none, sv, cg⟩ st = st := rfl

theorem NrWrites.merge_saved (f l : NrWrites) : (f.merge l).saved = (f.saved || l.saved) := rfl

theorem NrWrites.merge_chg (f l : NrWrites) : (f.merge l).chg = (f.chg || l.chg) := rfl

theorem merge_empty (W : NrWrites) :
    NrWrites.merge ⟨none, none, none, false, false⟩ W = W := by
  cases W with
  | mk a p r s c => cases a <;> cases p <;> cases r <;> rfl

theorem nrStepW_chg_false (username sha head : String) (i : Nat) (ws : List String)
    (h : (nrStepW username sha head i ws).chg = false) :
    nrStepW username sha head i ws = ⟨none, none, none, false, false⟩ := by
  unfold nrStepW at h ⊢
  dsimp only at h ⊢
  cases hc1 : (ws.getD i "" == "r+" || strStartsWith "r=" (ws.getD i ""))
  · simp only [hc1, Bool.false_eq_true, ite_false] at h ⊢
    cases hc2 : (ws.getD i "" == "r-")
    · simp only [hc2, Bool.false_eq_true, ite_false] at h ⊢
      cases hc3 : strStartsWith "p=" (ws.getD i "")
      · simp only [hc3, Bool.false_eq_true, ite_false] at h ⊢
        cases hc4 : (ws.getD i "" == "rollup" || ws.getD i "" == "rollup-")
        · simp only [hc4, Bool.false_eq_true, ite_false] at h ⊢
        · simp only [hc4, eq_self_iff_true, ite_true] at h
          exact absurd h (by simp)
      · simp only [hc3, eq_self_iff_true, ite_true] at h
        exact absurd h (by simp)
    · simp only [hc2, eq_self_iff_true, ite_true] at h
      exact absurd h (by simp)
  · simp only [hc1, eq_self_iff_true, ite_true] at h
    cases hcur : (sha == "" && decide (i + 1 < ws.length))
    · simp only [hcur, Bool.false_eq_true, ite_false] at h
      cases hm : sha_cmp sha head
      · simp only [hm, Bool.false_eq_true, ite_false] at h
        exact absurd h (by simp)
      · simp only [hm, eq_self_iff_true, ite_true] at h
        exact absurd h (by simp)
    · simp only [hcur, eq_self_iff_true, ite_true] at h
      cases hm : sha_cmp (sha_or_blank (ws.getD (i + 1) "")) head
      · simp only [hm, Bool.false_eq_true, ite_false] at h
        exact absurd h (by simp)
      · simp only [hm, eq_self_iff_true, ite_true] at h
        exact absurd h (by simp)

theorem parseGo_false_eq (username my_username sha forceErr : String) :
    ∀ (i : Nat) (ws : List String) (st : PullReqState) (db : DB)
      (co : List String) (ch : Bool),
      parseGo username my_username false sha forceErr i ws ⟨st, db, co, ch⟩
        = ⟨(nrGoW username sha st.head_sha i ws).apply st,
           (if (nrGoW username sha st.head_sha i ws).saved then
              PullReqState.save ((nrGoW username sha st.head_sha i ws).apply st) db
            else db),
           co, ch || (nrGoW username sha st.head_sha i ws).chg⟩ := by
  intro i
  induction i with
  | zero =>
      intro ws st db co ch
      simp only [parseGo, nrGoW]
      simp [NrWrites.apply]
  | succ i ih =>
      intro ws st db co ch
      have egoL : parseGo username my_username false sha forceErr (i + 1) ws ⟨st, db, co, ch⟩
          = (let fp := parseStep username my_username false sha forceErr i ws ⟨st, db, co, ch⟩
             if fp.1 then
               parseGo username my_username false sha forceErr i (ws.set i "")
                 { fp.2 with changed := true }
             else parseGo username my_username false sha forceErr i ws fp.2) := rfl
      have egoR : nrGoW username sha st.head_sha (i + 1) ws
          = (let Ws := nrStepW username sha st.head_sha i ws
             if Ws.chg then
               NrWrites.merge Ws (nrGoW username sha st.head_sha i (ws.set i ""))
             else NrWrites.merge Ws (nrGoW username sha st.head_sha i ws)) := rfl
      rw [egoL, egoR, parseStep_false_eq]
      dsimp only
      cases hchg : (nrStepW username sha st.head_sha i ws).chg
      · have hstep : nrStepW username sha st.head_sha i ws = ⟨none, none, none, false, false⟩ :=
          nrStepW_chg_false username sha st.head_sha i ws hchg
        rw [hstep]
        dsimp only
        simp only [Bool.false_eq_true, ite_false, apply_empty, merge_empty]
        exact ih ws st db co ch
      · simp only [hchg, eq_self_iff_true, ite_true]
        rw [ih (ws.set i "")
            ((nrStepW username sha st.head_sha i ws).apply st)
            (if (nrStepW username sha st.head_sha i ws).saved = true then
               PullReqState.save ((nrStepW username sha st.head_sha i ws).apply st) db
             else db)
            co true]
        simp only [NrWrites.apply_head, NrWrites.apply_merge, NrWrites.merge_saved,
          NrWrites.merge_chg, hchg, Bool.true_or, Bool.or_true]
        cases hsv : (nrStepW username sha st.head_sha i ws).saved
        · obtain ⟨sa, sp, sr⟩ := nrStepW_saved_writes username sha st.head_sha i ws hsv
          have happ : (nrStepW username sha st.head_sha i ws).apply st = st :=
            apply_of_no_writes _ _ sa sp sr
          simp only [hsv, happ, Bool.false_eq_true, ite_false, Bool.false_or]
        · simp only [hsv, eq_self_iff_true, ite_true, Bool.true_or]
          cases hsv2 : (nrGoW username sha st.head_sha i (ws.set i "")).saved
          · obtain ⟨ga, gp, gr⟩ :=
              nrGoW_saved_writes username sha st.head_sha i (ws.set i "") hsv2
            have happ2 : (nrGoW username sha st.head_sha i (ws.set i "")).apply
                ((nrStepW username sha st.head_sha i ws).apply st)
                = (nrStepW username sha st.head_sha i ws).apply st :=
              apply_of_no_writes _ _ ga gp gr
            simp only [hsv2, Bool.false_eq_true, ite_false, happ2]
          · simp only [hsv2, eq_self_iff_true, ite_true]
            rw [save_save _ _ _ (NrWrites.apply_repo _ _) (NrWrites.apply_num _ _)]

/-! ## Claim C1: the ordering key and the four-PR scenario -/

/-- C1: the PR ordering key is the lexicographic 6-tuple of the
specification (status priority over the effective status, then
definitively-unmergeable, then unapproved, then rollup, then negated
priority, then num), and the four PRs of the scenario sort to
(10, 20, 15, 30). -/
theorem sort_key_spec_and_example :
    (∀ st : PullReqState,
        st.status ∈ (["", "pending", "success", "failure", "error"] : List String) →
        st.sort_key = specOrderKey st) ∧
    (sortStates [mkPR 10 "pending" "a" false 0, mkPR 20 "" "a" false 0,
        mkPR 15 "" "a" true 0, mkPR 30 "" "" false 5]).map PullReqState.num
      = [10, 20, 15, 30] := by
  constructor
  · intro st hmem
    have hkey : ∀ s : String,
        s ∈ (["", "pending", "success", "failure", "error", "approved"] : List String) →
        STATUS_TO_PRIORITY s = specStatusPriority s := by
      intro s hs
      simp only [List.mem_cons, List.not_mem_nil, or_false] at hs
      rcases hs with h | h | h | h | h | h <;> subst h <;> rfl
    have hmem6 : st.get_status ∈
        (["", "pending", "success", "failure", "error", "approved"] : List String) := by
      unfold PullReqState.get_status
      split
      · simp
      · simp only [List.mem_cons, List.not_mem_nil, or_false] at hmem ⊢
        tauto
    have hgs : specEffectiveStatus st = st.get_status := rfl
    unfold PullReqState.sort_key specOrderKey
    rw [hgs, hkey _ hmem6]
  · decide

/-- Witness for C1: the refinement conjunct evaluated at one of the
scenario's PRs. -/
theorem sort_key_spec_and_example_witness :
    (mkPR 20 "" "a" false 0).sort_key = specOrderKey (mkPR 20 "" "a" false 0) :=
  sort_key_spec_and_example.1 _ (by decide)

/-! ## Claim C3: the build-slot guard is unconditional -/

/-- C3 counterexample: for a travis-shaped (non-session-CI) repository
with the buildbot slot occupied, `start_build` returns true immediately
with no platform effects at all (no ref update, no merge request, no
status check, no comment) and unchanged state - the occupied slot does
prevent the build from being created and dispatched, contrary to the
claim. -/
theorem start_build_slot_counterexample :
    start_build (mkPR 1 "" "alice" false 0) travisCfg (platformOf (.ok "abc123"))
        "cafef00dcafef00d" emptyDB
      = .ok ⟨true, mkPR 1 "" "alice" false 0, emptyDB, "cafef00dcafef00d",
          ⟨[], [], [], []⟩⟩ := by
  rfl

/-- C3 amended: the slot-empty precondition of `start_build` applies to
every repository, whatever its CI configuration: a non-empty slot makes
`start_build` return true at once, creating and dispatching nothing. -/
theorem start_build_slot_guard (st : PullReqState) (repo_cfg : RepoCfg)
    (platform : Platform) (slot : String) (db : DB) (h : slot ≠ "") :
    start_build st repo_cfg platform slot db = .ok ⟨true, st, db, slot, ⟨[], [], [], []⟩⟩ := by
  unfold start_build
  simp [h]

/-- Witness for the amended C3. -/
theorem start_build_slot_guard_witness :
    start_build (mkPR 2 "" "" false 0) travisCfg (platformOf .conflict) "feedbead" emptyDB
      = .ok ⟨true, mkPR 2 "" "" false 0, emptyDB, "feedbead", ⟨[], [], [], []⟩⟩ :=
  start_build_slot_guard (mkPR 2 "" "" false 0) travisCfg (platformOf .conflict)
    "feedbead" emptyDB (by decide)

/-! ## Claim C7: persistence effect of set_status -/

/-- C7: `set_status` always updates the persisted status column of the
PR's `(repo, num)` row, and writes the `merge_sha` column exactly when
`try_` is false; in try mode the persisted `merge_sha` is untouched. -/
theorem set_status_persistence (st : PullReqState) (status : String) (db : DB) :
    (st.set_status status db).1.status = status ∧
    (st.set_status status db).1.merge_sha = st.merge_sha ∧
    lookupPull (st.set_status status db).2 st.repo_label st.num =
      (lookupPull db st.repo_label st.num).map
        (fun r => { r with status := status, merge_sha := (if st.try_ then r.merge_sha else st.merge_sha) }) := by
  refine ⟨by rw [set_status_fst], by rw [set_status_fst], ?_⟩
  cases htry : st.try_
  · have e1 : (st.set_status status db).2
        = (db.updateStatus st.repo_label st.num status).updateMergeSha
            st.repo_label st.num st.merge_sha := by
      simp [PullReqState.set_status, htry]
    rw [e1, lookupPull_updateMergeSha, lookupPull_updateStatus]
    cases lookupPull db st.repo_label st.num <;> rfl
  · have e1 : (st.set_status status db).2 = db.updateStatus st.repo_label st.num status := by
      simp [PullReqState.set_status, htry]
    rw [e1, lookupPull_updateStatus]
    cases lookupPull db st.repo_label st.num <;> rfl

/-! ## Claim C8: unauthorized authors change nothing -/

/-- C8: a comment whose author is neither a configured reviewer nor the
bot itself makes `parse_commands` return false with the entity, the
store, and the comment log untouched. -/
theorem parse_commands_unauthorized (body username : String) (repo_cfg : RepoCfg)
    (st : PullReqState) (db : DB) (my_username : String) (realtime : Bool)
    (sha forceErr : String)
    (h1 : repo_cfg.reviewers.contains username = false)
    (h2 : username ≠ my_username) :
    parse_commands body username repo_cfg st db my_username realtime sha forceErr
      = (false, ⟨st, db, [], false⟩) := by
  have hc : (!(repo_cfg.reviewers.contains username) && username != my_username) = true := by
    rw [h1]
    simp [bne_iff_ne, h2]
  unfold parse_commands
  rw [if_pos hc]

/-- Witness for C8. -/
theorem parse_commands_unauthorized_witness :
    parse_commands "@bot r+" "mallory" travisCfg (mkPR 1 "" "" false 0) emptyDB
        "bot" true "" ""
      = (false, ⟨mkPR 1 "" "" false 0, emptyDB, [], false⟩) :=
  parse_commands_unauthorized "@bot r+" "mallory" travisCfg (mkPR 1 "" "" false 0)
    emptyDB "bot" true "" "" (by decide) (by decide)

/-! ## Claim C10: unknown builder in set_build_res -/

/-- C10: calling `set_build_res` with a builder absent from the PR's
build-results mapping fails with the `Invalid builder` exception; the
check precedes every mutation, so no new entity state and no store write
is produced. -/
theorem set_build_res_unknown_builder (st : PullReqState) (builder : String)
    (res : Option Bool) (url : String) (db : DB)
    (h : ∀ e ∈ st.build_res, e.1 ≠ builder) :
    st.set_build_res builder res url db = .error ("Invalid builder: " ++ builder) := by
  have hf : st.build_res.find? (fun e => e.1 == builder) = none :=
    List.find?_eq_none.mpr (fun e he => by simpa using h e he)
  unfold PullReqState.set_build_res
  simp [hf]

/-- Witness for C10. -/
theorem set_build_res_unknown_builder_witness :
    PullReqState.set_build_res
        { mkPR 1 "pending" "" false 0 with build_res := [("travis", none, "")] }
        "bogus" (some true) "http://x" emptyDB
      = .error "Invalid builder: bogus" :=
  set_build_res_unknown_builder _ "bogus" (some true) "http://x" emptyDB (by decide)

/-! ## Claim C4: merge conflict handling in start_build -/

/-- C4: with the slot empty, the head assertion passing and a configured
CI, a 409 conflict from the platform's merge call leaves the PR with
status `error`, creates the `homu`-context error status check with
description `Merge conflict`, posts the `:lock: Merge conflict` comment,
makes `start_build` return false with the slot cell unchanged; any other
platform error propagates to the caller. -/
theorem start_build_merge_conflict (st : PullReqState) (repo_cfg : RepoCfg)
    (platform : Platform) (db : DB)
    (hhead : st.head_sha = platform.pr_head_sha)
    (hcfg : (configBranchBuilders repo_cfg st).isSome = true) :
    (platform.merge_result = .conflict →
      conflictOutcome (start_build st repo_cfg platform "" db) st.head_sha) ∧
    (∀ code : Int, platform.merge_result = .otherError code →
      start_build st repo_cfg platform "" db = .error (.githubError code)) := by
  obtain ⟨⟨branch, builders⟩, hbb⟩ := Option.isSome_iff_exists.mp hcfg
  constructor
  · intro hconf
    unfold start_build create_merge
    simp only [hhead, bne_self_eq_false, Bool.false_eq_true, if_false, hbb, hconf]
    unfold conflictOutcome
    refine ⟨rfl, rfl, ?_, rfl, rfl⟩
    rw [set_status_fst]
  · intro code hcode
    unfold start_build create_merge
    simp only [hhead, bne_self_eq_false, Bool.false_eq_true, if_false, hbb, hcode]

/-- Witness for C4, at a travis-shaped repository and a conflicting merge. -/
theorem start_build_merge_conflict_witness :
    conflictOutcome
      (start_build (mkPR 1 "" "alice" false 0) travisCfg (platformOf .conflict) "" emptyDB)
      (mkPR 1 "" "alice" false 0).head_sha :=
  (start_build_merge_conflict (mkPR 1 "" "alice" false 0) travisCfg
    (platformOf .conflict) emptyDB (by decide) (by decide)).1 (by decide)

/-! ## Claim C5: recovery of persisted pull rows -/

/-- C5: on recovery, a persisted row with status `pending` but empty
`merge_sha` is loaded with the status demoted to the empty string and the
demoted row written back; a row with a non-empty `merge_sha` keeps its
status and gets its build results initialised for the configured builder
set (with no write-back to the `pull` table). -/
theorem recovery_pull_rows (row : PullRow) (repo_cfg : RepoCfg) (db : DB) :
    (row.status = "pending" → row.merge_sha = "" →
      loadedDemoted (loadPull row repo_cfg db) row) ∧
    (row.merge_sha ≠ "" → (recoveryBuilders repo_cfg).isSome = true →
      loadedWithMerge (loadPull row repo_cfg db) row
        ((recoveryBuilders repo_cfg).getD []) db) := by
  constructor
  · intro h1 h2
    unfold loadPull
    simp only [h1, h2, bne_self_eq_false, Bool.false_eq_true, if_false]
    simp only [loadedDemoted]
    refine ⟨rfl, rfl, ?_⟩
    exact lookupPull_replacePull _ _
  · intro h1 h2
    obtain ⟨builders, hb⟩ := Option.isSome_iff_exists.mp h2
    have hm : (row.merge_sha != "") = true := by simp [bne_iff_ne, h1]
    unfold loadPull
    simp [hm, hb, loadedWithMerge, PullReqState.init_build_res, DB.deleteMergeable]

/-! ## Claim C2: what r+ without a SHA argument really does -/

/-- C2 counterexample: an authorized reviewer's comment `@bot r+` (no SHA
argument), parsed with an empty context SHA as every issue comment is, is
recognised (`state_changed` is true) but does not set `approvedBy` to the
author: the parser only approves when the context SHA prefix-matches the
head; in realtime it instead posts the `:pushpin:` acknowledgement that
embeds a self-addressed `r=` command carrying the full head SHA. -/
theorem r_plus_counterexample :
    (parse_commands "@bot r+" "alice" travisCfg (mkPR 1 "" "" false 0) emptyDB
        "bot" true "" "").1 = true ∧
    (parse_commands "@bot r+" "alice" travisCfg (mkPR 1 "" "" false 0) emptyDB
        "bot" true "" "").2.state.approved_by ≠ "alice" ∧
    (parse_commands "@bot r+" "alice" travisCfg (mkPR 1 "" "" false 0) emptyDB
        "bot" true "" "").2.comments
      = [":pushpin: Commit deadbee has been approved by `alice`\n\n" ++
          "<!-- @bot r=alice deadbeefcafebabe0123456789abcdef01234567 -->"] := by
  refine ⟨by decide, by decide, by decide⟩

/-- C2 amended: for an authorized comment whose only directive token is
`r+` with no SHA argument, the parse approves the PR attributed to the
comment author exactly when the parse-context SHA (bound to the head for
the review comments the synchronizer replays) prefix-matches the current
head; with an empty context SHA the approval state is left unchanged. -/
theorem r_plus_approves_iff_context_sha (st : PullReqState) (db : DB) (cfg : RepoCfg)
    (username sha : String)
    (hauth : cfg.reviewers.contains username = true)
    (hsha : sha_cmp sha st.head_sha = true) :
    (parse_commands "@bot r+" username cfg st db "bot" false sha "").2.state.approved_by
        = username ∧
    (parse_commands "@bot r+" username cfg st db "bot" false "" "").2.state.approved_by
        = st.approved_by := by
  have hcond : ¬((!(cfg.reviewers.contains username) && username != "bot") = true) := by
    rw [hauth]
    simp
  have main : ∀ (s : String) (ps : ParseSt),
      parseGo username "bot" false s "" 2 ["@bot", "r+"] ps
        = (if sha_cmp s ps.state.head_sha then
             ⟨{ ps.state with approved_by := username },
              PullReqState.save { ps.state with approved_by := username } ps.db,
              ps.comments, true⟩
           else { ps with changed := true }) := by
    intro s ps
    have hpre1 : strStartsWith "r=" "r+" = false := rfl
    have e1 : parseGo username "bot" false s "" 2 ["@bot", "r+"] ps
        = (let fp := parseStep username "bot" false s "" 1 ["@bot", "r+"] ps
           if fp.1 then
             parseGo username "bot" false s "" 1 ["@bot", ""] { fp.2 with changed := true }
           else parseGo username "bot" false s "" 1 ["@bot", "r+"] fp.2) := rfl
    have e0 : ∀ ws' ps', parseGo username "bot" false s "" 1 ("@bot" :: ws') ps'
        = (let fp := parseStep username "bot" false s "" 0 ("@bot" :: ws') ps'
           if fp.1 then
             parseGo username "bot" false s "" 0 ("" :: ws') { fp.2 with changed := true }
           else parseGo username "bot" false s "" 0 ("@bot" :: ws') fp.2) := fun _ _ => rfl
    have hinert : ∀ ws' ps', parseStep username "bot" false s "" 0 ("@bot" :: ws') ps'
        = (false, ps') :=
      fun ws' ps' => parseStep_inert username "bot" false s "" 0 ("@bot" :: ws') ps' rfl
    cases hc : sha_cmp s ps.state.head_sha
    · have estep : parseStep username "bot" false s "" 1 ["@bot", "r+"] ps = (true, ps) := by
        unfold parseStep
        simp only [hpre1, Bool.and_false, Bool.false_eq_true, ite_false]
        norm_num [hc]
      rw [e1]
      simp only [estep, e0, hinert, ite_true, ite_false, Bool.false_eq_true]
      simp [parseGo]
    · have estep : parseStep username "bot" false s "" 1 ["@bot", "r+"] ps
          = (true, ⟨{ ps.state with approved_by := username },
              PullReqState.save { ps.state with approved_by := username } ps.db,
              ps.comments, ps.changed⟩) := by
        unfold parseStep
        simp only [hpre1, Bool.and_false, Bool.false_eq_true, ite_false]
        norm_num [hc, hpre1]
      rw [e1]
      simp only [estep, e0, hinert, ite_true, ite_false, Bool.false_eq_true]
      simp [parseGo]
  constructor
  · have h2 : (parse_commands "@bot r+" username cfg st db "bot" false sha "").2
        = parseGo username "bot" false sha "" 2 ["@bot", "r+"] ⟨st, db, [], false⟩ := by
      unfold parse_commands
      rw [if_neg hcond]
      rfl
    rw [h2, main sha ⟨st, db, [], false⟩]
    simp only [hsha, eq_self_iff_true, ite_true]
  · have h2 : (parse_commands "@bot r+" username cfg st db "bot" false "" "").2
        = parseGo username "bot" false "" "" 2 ["@bot", "r+"] ⟨st, db, [], false⟩ := by
      unfold parse_commands
      rw [if_neg hcond]
      rfl
    rw [h2, main "" ⟨st, db, [], false⟩]
    rfl

/-- Witness for the amended C2, with the full head SHA as context. -/
theorem r_plus_approves_iff_context_sha_witness :
    (parse_commands "@bot r+" "alice" travisCfg (mkPR 1 "" "" false 0) emptyDB "bot" false
        "deadbeefcafebabe0123456789abcdef01234567" "").2.state.approved_by = "alice" ∧
    (parse_commands "@bot r+" "alice" travisCfg (mkPR 1 "" "" false 0) emptyDB "bot" false
        "" "").2.state.approved_by = (mkPR 1 "" "" false 0).approved_by :=
  r_plus_approves_iff_context_sha (mkPR 1 "" "" false 0) emptyDB travisCfg "alice"
    "deadbeefcafebabe0123456789abcdef01234567" (by decide) (by decide)

/-! ## Claim C6: what a failing SHA argument really triggers -/

/-- C6 counterexample: the spec's own instance fails.  With head
`deadbeefcafebabe...`, the authorized realtime comment
`@bot r=alice deadXXXX` does not post any `:question:` comment: the
non-hex token is blanked by `sha_or_blank`, so the parser takes the
no-SHA path and posts the `:pushpin:` acknowledgement instead. -/
theorem bad_sha_counterexample :
    (parse_commands "@bot r=alice deadXXXX" "alice" travisCfg (mkPR 1 "" "" false 0)
        emptyDB "bot" true "" "").2.state.approved_by = "" ∧
    (parse_commands "@bot r=alice deadXXXX" "alice" travisCfg (mkPR 1 "" "" false 0)
        emptyDB "bot" true "" "").2.comments
      = [":pushpin: Commit deadbee has been approved by `alice`\n\n" ++
          "<!-- @bot r=alice deadbeefcafebabe0123456789abcdef01234567 -->"] ∧
    strContains
      (":pushpin: Commit deadbee has been approved by `alice`\n\n" ++
        "<!-- @bot r=alice deadbeefcafebabe0123456789abcdef01234567 -->")
      ":question:" = false := by
  refine ⟨by decide, by decide, by decide⟩

/-- C6 amended: in realtime mode, an authorized `r=<user>` (or `r+`) with
a SHA argument that is lowercase hex (so it survives `sha_or_blank`) but
fails the prefix match against the current head leaves `approvedBy`
unchanged and posts the clarifying
`:question: ... is not a valid commit SHA.` comment; a non-hex argument
is blanked to the empty string and triggers the `:pushpin:`
acknowledgement path instead. -/
theorem bad_hex_sha_question_comment (st : PullReqState) (db : DB) (cfg : RepoCfg)
    (hauth : cfg.reviewers.contains "alice" = true)
    (hsha : sha_cmp "beef1234" st.head_sha = false) :
    (parse_commands "@bot r=alice beef1234" "alice" cfg st db "bot" true "" "").2.state
        = st ∧
    (parse_commands "@bot r=alice beef1234" "alice" cfg st db "bot" true "" "").2.comments
      = [":question: `beef1234` is not a valid commit SHA. Please try again with `" ++
          strTake st.head_sha 7 ++ "`."] := by
  have hcond : ¬((!(cfg.reviewers.contains "alice") && "alice" != "bot") = true) := by
    rw [hauth]
    simp
  have e2 : parseGo "alice" "bot" true "" "" 3 ["@bot", "r=alice", "beef1234"]
        ⟨st, db, [], false⟩
      = parseGo "alice" "bot" true "" "" 2 ["@bot", "r=alice", "beef1234"]
        ⟨st, db, [], false⟩ := by
    have hstep : parseStep "alice" "bot" true "" "" 2 ["@bot", "r=alice", "beef1234"]
        ⟨st, db, [], false⟩ = (false, ⟨st, db, [], false⟩) :=
      parseStep_inert "alice" "bot" true "" "" 2 _ _ rfl
    have e1 : parseGo "alice" "bot" true "" "" 3 ["@bot", "r=alice", "beef1234"]
          ⟨st, db, [], false⟩
        = (let fp := parseStep "alice" "bot" true "" "" 2 ["@bot", "r=alice", "beef1234"]
             ⟨st, db, [], false⟩
           if fp.1 then
             parseGo "alice" "bot" true "" "" 2 ["@bot", "r=alice", ""]
               { fp.2 with changed := true }
           else parseGo "alice" "bot" true "" "" 2 ["@bot", "r=alice", "beef1234"] fp.2) := rfl
    rw [e1]
    simp only [hstep, Bool.false_eq_true, ite_false]
  have hmsg : parseStep "alice" "bot" true "" "" 1 ["@bot", "r=alice", "beef1234"]
        ⟨st, db, [], false⟩
      = (true, ⟨st, db,
          [":question: `beef1234` is not a valid commit SHA. Please try again with `" ++
            strTake st.head_sha 7 ++ "`."], false⟩) := by
    have ha : strStartsWith "r=" "r=alice" = true := rfl
    have hb : sha_or_blank "beef1234" = "beef1234" := rfl
    have hd : strDrop "r=alice" 2 = "alice" := rfl
    unfold parseStep
    norm_num [hsha, ha, hb, hd]
    rw [if_neg (by decide : ¬("alice" = "bot")), if_neg (by decide : ¬("beef1234" = ""))]
    simp
  have e3 : parseGo "alice" "bot" true "" "" 2 ["@bot", "r=alice", "beef1234"]
        ⟨st, db, [], false⟩
      = parseGo "alice" "bot" true "" "" 1 ["@bot", "", "beef1234"]
        ⟨st, db,
          [":question: `beef1234` is not a valid commit SHA. Please try again with `" ++
            strTake st.head_sha 7 ++ "`."], true⟩ := by
    have e1 : parseGo "alice" "bot" true "" "" 2 ["@bot", "r=alice", "beef1234"]
          ⟨st, db, [], false⟩
        = (let fp := parseStep "alice" "bot" true "" "" 1 ["@bot", "r=alice", "beef1234"]
             ⟨st, db, [], false⟩
           if fp.1 then
             parseGo "alice" "bot" true "" "" 1 ["@bot", "", "beef1234"]
               { fp.2 with changed := true }
           else parseGo "alice" "bot" true "" "" 1 ["@bot", "r=alice", "beef1234"] fp.2) := rfl
    rw [e1]
    simp only [hmsg, eq_self_iff_true, ite_true]
  have e4 : ∀ ps : ParseSt,
      parseGo "alice" "bot" true "" "" 1 ["@bot", "", "beef1234"] ps = ps := by
    intro ps
    have hstep : parseStep "alice" "bot" true "" "" 0 ["@bot", "", "beef1234"] ps
        = (false, ps) :=
      parseStep_inert "alice" "bot" true "" "" 0 ["@bot", "", "beef1234"] ps rfl
    have e1 : parseGo "alice" "bot" true "" "" 1 ["@bot", "", "beef1234"] ps
        = (let fp := parseStep "alice" "bot" true "" "" 0 ["@bot", "", "beef1234"] ps
           if fp.1 then
             parseGo "alice" "bot" true "" "" 0 ["", "", "beef1234"]
               { fp.2 with changed := true }
           else parseGo "alice" "bot" true "" "" 0 ["@bot", "", "beef1234"] fp.2) := rfl
    rw [e1]
    simp only [hstep, Bool.false_eq_true, ite_false]
    rfl
  have h2 : (parse_commands "@bot r=alice beef1234" "alice" cfg st db "bot" true "" "").2
      = parseGo "alice" "bot" true "" "" 3 ["@bot", "r=alice", "beef1234"]
        ⟨st, db, [], false⟩ := by
    unfold parse_commands
    rw [if_neg hcond]
    rfl
  rw [h2, e2, e3, e4]
  exact ⟨rfl, rfl⟩

/-- Witness for the amended C6, at the spec's concrete head. -/
theorem bad_hex_sha_question_comment_witness :
    (parse_commands "@bot r=alice beef1234" "alice" travisCfg (mkPR 1 "" "" false 0)
        emptyDB "bot" true "" "").2.state = mkPR 1 "" "" false 0 ∧
    (parse_commands "@bot r=alice beef1234" "alice" travisCfg (mkPR 1 "" "" false 0)
        emptyDB "bot" true "" "").2.comments
      = [":question: `beef1234` is not a valid commit SHA. Please try again with `" ++
          strTake (mkPR 1 "" "" false 0).head_sha 7 ++ "`."] :=
  bad_hex_sha_question_comment (mkPR 1 "" "" false 0) emptyDB travisCfg
    (by decide) (by decide)

/-! ## Claim C9: double parse is idempotent in non-realtime mode -/

/-- C9: parsing the same authorized comment body twice in succession in
non-realtime mode leaves the PR state - entity and persisted row alike -
equal to the state after parsing it once.  (The realtime-only directives
`retry`, `try`, `force`, `clean` are inert here.) -/
theorem parse_commands_idempotent (body username : String) (repo_cfg : RepoCfg)
    (st : PullReqState) (db : DB) (my_username sha forceErr : String)
    (hauth : (repo_cfg.reviewers.contains username || username == my_username) = true) :
    (parse_commands body username repo_cfg
        (parse_commands body username repo_cfg st db my_username false sha forceErr).2.state
        (parse_commands body username repo_cfg st db my_username false sha forceErr).2.db
        my_username false sha forceErr).2.state
      = (parse_commands body username repo_cfg st db my_username false sha forceErr).2.state ∧
    (parse_commands body username repo_cfg
        (parse_commands body username repo_cfg st db my_username false sha forceErr).2.state
        (parse_commands body username repo_cfg st db my_username false sha forceErr).2.db
        my_username false sha forceErr).2.db
      = (parse_commands body username repo_cfg st db my_username false sha forceErr).2.db := by
  have hcond : ¬((!(repo_cfg.reviewers.contains username) && username != my_username)
      = true) := by
    intro hbad
    rcases Bool.and_eq_true_iff.mp hbad with ⟨h1, h2⟩
    have h1x : repo_cfg.reviewers.contains username = false := by
      cases hcc : repo_cfg.reviewers.contains username
      · rfl
      · rw [hcc] at h1
        exact absurd h1 (by simp)
    rcases Bool.or_eq_true_iff.mp hauth with h | h
    · rw [h] at h1x
      exact Bool.false_ne_true h1x.symm
    · have hx : username = my_username := by simpa using h
      rw [bne_iff_ne] at h2
      exact h2 hx
  have hp : ∀ (s : PullReqState) (d : DB),
      (parse_commands body username repo_cfg s d my_username false sha forceErr).2
        = parseGo username my_username false sha forceErr
            (commentWords body my_username).length (commentWords body my_username)
            ⟨s, d, [], false⟩ := by
    intro s d
    unfold parse_commands
    rw [if_neg hcond]
  rw [hp st db, parseGo_false_eq]
  dsimp only
  rw [hp, parseGo_false_eq]
  dsimp only
  simp only [NrWrites.apply_head]
  constructor
  · exact NrWrites.apply_apply _ st
  · cases hsv : (nrGoW username sha st.head_sha (commentWords body my_username).length
        (commentWords body my_username)).saved
    · simp only [hsv, Bool.false_eq_true, ite_false]
    · simp only [hsv, eq_self_iff_true, ite_true, NrWrites.apply_apply]
      exact save_save _ _ _ rfl rfl

/-- Witness for C9: a concrete authorized comment with several directives,
parsed twice. -/
theorem parse_commands_idempotent_witness :
    (parse_commands "@bot r+ p=2 rollup" "alice" travisCfg
        (parse_commands "@bot r+ p=2 rollup" "alice" travisCfg (mkPR 1 "" "" false 0)
          emptyDB "bot" false "deadbeefcafebabe0123456789abcdef01234567" "").2.state
        (parse_commands "@bot r+ p=2 rollup" "alice" travisCfg (mkPR 1 "" "" false 0)
          emptyDB "bot" false "deadbeefcafebabe0123456789abcdef01234567" "").2.db
        "bot" false "deadbeefcafebabe0123456789abcdef01234567" "").2.state
      = (parse_commands "@bot r+ p=2 rollup" "alice" travisCfg (mkPR 1 "" "" false 0)
          emptyDB "bot" false "deadbeefcafebabe0123456789abcdef01234567" "").2.state ∧
    (parse_commands "@bot r+ p=2 rollup" "alice" travisCfg
        (parse_commands "@bot r+ p=2 rollup" "alice" travisCfg (mkPR 1 "" "" false 0)
          emptyDB "bot" false "deadbeefcafebabe0123456789abcdef01234567" "").2.state
        (parse_commands "@bot r+ p=2 rollup" "alice" travisCfg (mkPR 1 "" "" false 0)
          emptyDB "bot" false "deadbeefcafebabe0123456789abcdef01234567" "").2.db
        "bot" false "deadbeefcafebabe0123456789abcdef01234567" "").2.db
      = (parse_commands "@bot r+ p=2 rollup" "alice" travisCfg (mkPR 1 "" "" false 0)
          emptyDB "bot" false "deadbeefcafebabe0123456789abcdef01234567" "").2.db :=
  parse_commands_idempotent "@bot r+ p=2 rollup" "alice" travisCfg (mkPR 1 "" "" false 0)
    emptyDB "bot" "deadbeefcafebabe0123456789abcdef01234567" "" (by decide)

/-- Witness for C5: the demotion conjunct at a concrete dangling row. -/
theorem recovery_pull_rows_witness :
    loadedDemoted
      (loadPull
        { repo := "repo", num := 7, status := "pending", merge_sha := "",
          title := "t", body := "b", head_sha := "deadbeefcafebabe0123456789abcdef01234567",
          head_ref := "o:f", base_ref := "master", assignee := "", approved_by := "alice",
          priority := 0, try_ := false, rollup := false }
        travisCfg emptyDB)
      { repo := "repo", num := 7, status := "pending", merge_sha := "",
        title := "t", body := "b", head_sha := "deadbeefcafebabe0123456789abcdef01234567",
        head_ref := "o:f", base_ref := "master", assignee := "", approved_by := "alice",
        priority := 0, try_ := false, rollup := false } :=
  (recovery_pull_rows _ travisCfg emptyDB).1 rfl rfl
